import Mathlib

/-!
Verification of the BWCurve curve-document library (src/src/index.ts).

JavaScript strings are modelled as lists of UTF-16 code units (`List Nat`,
via `charCodeAt`); byte buffers (`Uint8Array`) as `List Nat`; JavaScript
numbers as `ℚ` (every concrete value appearing in the verified claims is a
dyadic rational represented exactly by an IEEE-754 binary64, and every
arithmetic step at those values is exact, so rational arithmetic agrees
with the double arithmetic the program performs).  The platform primitive
`DataView.setFloat64` (big-endian 8-byte IEEE-754 encoding) and its inverse
are abstracted as an `F64Codec` parameter; theorems that depend on its
behaviour take the relevant properties (8-byte output, decode∘encode
identity at the document's values) as hypotheses.

The class field `internal : { length: number }` is set once by the
constructor and never read or written afterwards, so it is omitted from the
model.
-/

/-- `c.charCodeAt(0).toString(16)` digit characters of `n` in base 16
(JavaScript `Number.prototype.toString(16)` for naturals, lowercase). -/
def jsHexDigits (n : Nat) : List Char := Nat.toDigits 16 n

/-- The whitespace characters removed by `replace(/\s/g, '')`. -/
def isJsSpace (c : Char) : Bool :=
  c = ' ' ∨ c = '\t' ∨ c = '\n' ∨ c = '\r'

/-- Value of one hexadecimal digit character, as accepted by
`parseInt(·, 16)` (both cases). -/
def hexVal (c : Char) : Option Nat :=
  if '0' ≤ c ∧ c ≤ '9' then some (c.toNat - 48)
  else if 'a' ≤ c ∧ c ≤ 'f' then some (c.toNat - 87)
  else if 'A' ≤ c ∧ c ≤ 'F' then some (c.toNat - 55)
  else none

/-- `parseInt(chunk, 16)` on a 1-2 character chunk, followed by the
`Uint8Array.from` coercion that turns `NaN` into `0`: the longest valid
hexadecimal prefix is parsed, and no valid prefix yields `0`. -/
def jsParseIntHex : List Char → Nat
  | [] => 0
  | c :: cs =>
    match hexVal c with
    | none => 0
    | some v =>
      match cs with
      | [] => v
      | c2 :: _ =>
        match hexVal c2 with
        | none => v
        | some v2 => 16 * v + v2

/-- The chunking performed by `hexString.match(/.{1,2}/g)`: greedy pairs,
with a final singleton when the length is odd. -/
def chunk2 : List Char → List (List Char)
  | [] => []
  | [a] => [[a]]
  | a :: b :: rest => [a, b] :: chunk2 rest

/-- `fromHexString` from the source: strip whitespace, chunk into pairs,
parse each chunk as hexadecimal.  When the stripped string is empty,
`match` returns `null` and the non-null assertion makes `.map` throw a
`TypeError`; that failure is modelled as `none`. -/
def fromHexString (s : List Char) : Option (List Nat) :=
  let noSpaces := s.filter (fun c => ¬ isJsSpace c)
  match chunk2 noSpaces with
  | [] => none
  | chunks => some (chunks.map jsParseIntHex)

/-- `stringToHex` from the source: each UTF-16 unit rendered in base 16
(unpadded) and concatenated. -/
def stringToHex (s : List Nat) : List Char :=
  (s.map jsHexDigits).flatten

/-- `Array.prototype.join(sep)` on already-stringified elements. -/
def jsJoin (sep : List α) : List (List α) → List α
  | [] => []
  | [a] => a
  | a :: b :: rest => a ++ sep ++ jsJoin sep (b :: rest)

/-- Convenience: the byte list a hex constant denotes (all constants in the
source are well-formed, so `getD []` is never exercised on them). -/
def hexC (s : String) : List Nat := (fromHexString s.data).getD []

/-- `Math.sign`. -/
def jsSign (q : ℚ) : ℚ := if 0 < q then 1 else if q < 0 then -1 else 0

/-- One control point of the curve: `{ x, y, slope }`. -/
structure BWCurvePoint where
  x : ℚ
  y : ℚ
  slope : ℚ
deriving DecidableEq, Repr

/-- The closed category enumeration. -/
inductive BWCurveCategories where
  | Envelope
  | Lookup
  | Periodic
  | Sequence
deriving DecidableEq, Repr

/-- The category's string literal (UTF-16 units), written verbatim into the
stream. -/
def BWCurveCategories.codes : BWCurveCategories → List Nat
  | .Envelope => (String.data (r"Envelope")).map Char.toNat
  | .Lookup => (String.data (r"Lookup")).map Char.toNat
  | .Periodic => (String.data (r"Periodic")).map Char.toNat
  | .Sequence => (String.data (r"Sequence")).map Char.toNat

/-- Curve metadata. -/
structure BWCurveMetadata where
  creator : List Nat
  description : List Nat
  name : List Nat
  tags : List (List Nat)
  category : BWCurveCategories
deriving DecidableEq, Repr

/-- A curve document: metadata plus an ordered point sequence. -/
structure BWCurve where
  metadata : BWCurveMetadata
  points : List BWCurvePoint
deriving DecidableEq, Repr

/-- UTF-16 units of a Lean string literal, for building concrete documents. -/
def strCodes (s : String) : List Nat := s.data.map Char.toNat

/-- The constructor's default document. -/
def newBWCurve : BWCurve :=
  { metadata :=
      { name := strCodes (r"default")
      , creator := strCodes (r"default")
      , category := .Envelope
      , description := strCodes (r"default")
      , tags := [strCodes (r"default")] }
  , points := [] }

namespace BWCurve

/-- `map`: `this.points = this.points.map(callback)`; the callback receives
the point, its index, and the (pre-call) array. -/
def map (d : BWCurve) (f : BWCurvePoint → Nat → List BWCurvePoint → BWCurvePoint) : BWCurve :=
  { d with points := d.points.mapIdx fun i p => f p i d.points }

/-- `clamp`: force `y` into `[0,1]` and `slope` into `[-1,1]`. -/
def clamp (d : BWCurve) : BWCurve :=
  d.map fun p _ _ =>
    { p with
      y := max 0 (min 1 p.y)
      slope := max (-1) (min 1 p.slope) }

/-- `scaleX(factor)`. -/
def scaleX (d : BWCurve) (factor : ℚ) : BWCurve :=
  { d with points := d.points.map fun p => { p with x := p.x * factor } }

/-- `getMaxX`: `Math.max(...points.map(p => p.x))`.  On an empty sequence
the source yields `-Infinity`, which has no rational counterpart; every
verified use is on a nonempty sequence, where the fold below agrees with
`Math.max`. -/
def getMaxX (d : BWCurve) : ℚ :=
  match d.points.map BWCurvePoint.x with
  | [] => 0
  | x :: xs => xs.foldl max x

/-- `pushPoints(...)`: variadic append of points or point arrays, in
argument order. -/
def pushPoints (d : BWCurve) (args : List (BWCurvePoint ⊕ List BWCurvePoint)) : BWCurve :=
  { d with
    points := d.points ++ (args.map fun a =>
      match a with
      | .inl p => [p]
      | .inr l => l).flatten }

/-- `spliceCurve(curve)`: append the argument's points offset by the
receiver's max x; adopt them directly when the receiver is empty. -/
def spliceCurve (d : BWCurve) (curve : BWCurve) : BWCurve :=
  if curve.points = [] then d
  else if d.points = [] then { d with points := curve.points }
  else
    let maxX := d.getMaxX
    let pointsWithOffset := curve.points.map fun p => { p with x := p.x + maxX }
    d.pushPoints [.inr pointsWithOffset]

/-- `double()`: as written in the source, `this.scaleX(0.5 * maxX)`
followed by `this.spliceCurve(this)` (both arguments alias the already
rescaled receiver). -/
def double (d : BWCurve) : BWCurve :=
  if d.points.length ≤ 1 then d
  else
    let maxX := d.getMaxX
    let s := d.scaleX (0.5 * maxX)
    s.spliceCurve s

/-- `removePoint(index)`: `this.points.splice(index, 1)` with JavaScript
`splice` index semantics: a negative index counts from the end (clamped to
the start), an index past the end deletes nothing. -/
def removePoint (d : BWCurve) (index : Int) : BWCurve :=
  let len : Int := d.points.length
  let start : Nat := (if index < 0 then max (len + index) 0 else min index len).toNat
  { d with points := d.points.take start ++ d.points.drop (start + 1) }

end BWCurve

/-- The transcendental `Math` functions and `Math.PI`, abstracted: the
ECMAScript specification pins their values only at special points (for
example `Math.tanh(+0) = +0`), which theorems take as hypotheses. -/
structure JsMath where
  tanh : ℚ → ℚ
  sin : ℚ → ℚ
  pi : ℚ

/-- `clip(algorithm)`: non-linear waveshaping of every `y` keyed by the
algorithm tag; an unrecognized tag falls through to the no-op default
branch. -/
def BWCurve.clip (m : JsMath) (d : BWCurve) (algorithm : String) : BWCurve :=
  if algorithm = (r"tanh") then
    d.map fun p _ _ => { p with y := m.tanh (5 * p.y) }
  else if algorithm = (r"sin") then
    d.map fun p _ _ =>
      { p with y := if 2 / 3 < |p.y| then jsSign p.y else m.sin (3 * m.pi * p.y / 4) }
  else if algorithm = (r"cubic") then
    d.map fun p _ _ =>
      { p with y := if 2 / 3 < |p.y| then jsSign p.y else 9 * p.y / 4 - 27 * p.y ^ 3 / 16 }
  else d

/-- The platform primitive `DataView.setFloat64(·, ·, false)` (big-endian
8-byte IEEE-754 binary64 encoding of a number) and the inverse read,
abstracted.  Theorems about the codec take the properties they need of
these (an 8-byte image; decode∘encode identity at the values that occur)
as hypotheses, since they are fixed by the IEEE-754 format, not by this
program. -/
structure F64Codec where
  enc : ℚ → List Nat
  dec : List Nat → Option ℚ

/-- `setFloat64(offset, v)`-style in-place overwrite of a byte array. -/
def writeBytesAt (arr : List Nat) (off : Nat) (bs : List Nat) : List Nat :=
  arr.take off ++ bs ++ arr.drop (off + bs.length)

def hxPtPre : String := r"00 12 7E 00 00 35 FD 07"

def hxPtA : String := r"00 00 35 FE 07"

def hxPtB : String := r"00 00 35 FF 07"

def hxPtTrail : String := r"00 00 00 00 00"

/-- One point record of the points block: the 47-byte structure built in
`toBuffer`'s `points.map`, with the three doubles written big-endian at
offsets 8, 21 and 34. -/
def pointStructure (c : F64Codec) (p : BWCurvePoint) : Option (List Nat) := do
  let t1 ← fromHexString hxPtPre.data
  let t2 ← fromHexString hxPtA.data
  let t3 ← fromHexString hxPtB.data
  let t4 ← fromHexString hxPtTrail.data
  let arr := t1 ++ List.replicate 8 0 ++ t2 ++ List.replicate 8 0 ++ t3 ++ List.replicate 8 0 ++ t4
  let arr := writeBytesAt arr 8 (c.enc p.y)
  let arr := writeBytesAt arr 21 (c.enc p.x)
  let arr := writeBytesAt arr 34 (c.enc p.slope)
  pure arr


/-- Left-to-right sequencing of a list of fallible values; the first
failure aborts, exactly as the first thrown `TypeError` aborts the
evaluation of the source's array literal. -/
def seqOption : List (Option α) → Option (List α)
  | [] => some []
  | o :: rest => do
    let a ← o
    let as ← seqOption rest
    pure (a :: as)

/-!
The fixed byte constants of the format, one named string per
`fromHexString('...')` literal of `toBuffer`, transcribed verbatim.
-/

def hxSpacer : String := r"00 00 00"

def hxStop : String := r"00"

def hxHdr : String :=
  r"42 74 57 67 30 30 30 33 30 30 30 32 30 30 30 30 30 30 30 30 31 35 30 65 30 30 30 30 30 30 30 30 30 30 30 30 30 30 30 30 30 30"

def hx04 : String := r"04"

def hxMeta : String := r"04 6D 65 74 61"

def hx01 : String := r"01"

def hxAppVersionName : String :=
  r"18 61 70 70 6C 69 63 61 74 69 6F 6E 5F 76 65 72 73 69 6F 6E 5F 6E 61 6D 65 08"

def hxV522 : String := r"05 35 2E 32 2E 32"

def hxBranch : String := r"06 62 72 61 6E 63 68 08"

def hxReleases : String := r"08 72 65 6C 65 61 73 65 73"

def hxComment : String := r"07 63 6F 6D 6D 65 6E 74"

def hx08 : String := r"08"

def hxCreatorTag : String := r"07 63 72 65 61 74 6F 72 08"

def hx0E : String := r"0E"

def hxCategoryTag : String := r"63 75 72 76 65 5F 63 61 74 65 67 6F 72 79 08"

def hx0A : String := r"0A"

def hxCurveKind : String := r"63 75 72 76 65 5F 6B 69 6E 64 01 02"

def hxRevisionId : String := r"0B 72 65 76 69 73 69 6F 6E 5F 69 64 08"

def hxRevisionStr : String :=
  r"28 31 64 39 35 34 37 37 33 36 65 34 32 35 37 64 36 61 61 37 64 33 34 66 39 66 64 64 39 62 38 63 34 66 39 39 38 34 61 36 30"

def hxRevisionNo : String := r"0B 72 65 76 69 73 69 6F 6E 5F 6E 6F 03 00 02 45 A0"

def hxTagsTag : String := r"04 74 61 67 73 08"

def hx00 : String := r"00"

/-- The separator the source passes to `.join` for the tag byte block. -/
def hxTagSep : String := r"20"

/-- The separator `'0'` the source passes to `.join` for the tag length. -/
def joinZero : String := r"0"

def hxTypeTag : String := r"04 74 79 70 65 08"

def hxMime : String :=
  r"18 61 70 70 6C 69 63 61 74 69 6F 6E 2F 62 69 74 77 69 67 2D 63 75 72 76 65"

def hxSpaces : String := r"20 20 20 20 20 20 20 20 20 20 20 20 20 20 20 20 0A"

def hxPointsDecl : String :=
  r"00 12 7F 00 00 36 2D 01 02 00 00 36 46 05 01 00 00 36 01 01 20 00 00 36 02 01 01 00 00 36 35 01 00 00 00 36 03 12 00"

def hxPointsEnd : String :=
  r"00 00 03 00 00 37 88 01 FF 00 00 36 65 01 FF 00 00 36 66 01 FF 00"

def hxNameTag : String := r"00 36 0B 08"

def hxTrCreator : String := r"00 36 21 08"

def hxTrDesc : String := r"00 36 23 08"

def hxTrCat : String := r"00 36 22 08"

def hxTrTags : String := r"00 36 A6 08"

/-- The length byte(s) the encoder writes before a length-prefixed string
field: `value.length.toString(16)` re-parsed as hex bytes. -/
def lenHex (n : Nat) : Option (List Nat) := fromHexString (jsHexDigits n)

/-- The entries of the encoder's array literal that precede the merged
point records, one entry per spread element, in source order. -/
def toBufferSegsA (d : BWCurve) (spacer : List Nat) : List (Option (List Nat)) := [
  fromHexString hxHdr.data,
  some spacer,
  fromHexString hx04.data,
  some spacer,
  fromHexString hxMeta.data,
  some spacer,
  fromHexString hx01.data,
  some spacer,
  fromHexString hxAppVersionName.data,
  some spacer,
  fromHexString hxV522.data,
  some spacer,
  fromHexString hx01.data,
  some spacer,
  fromHexString hxBranch.data,
  some spacer,
  fromHexString hxReleases.data,
  some spacer,
  fromHexString hx01.data,
  some spacer,
  fromHexString hxComment.data,
  fromHexString hx08.data,
  some spacer,
  lenHex d.metadata.description.length,
  fromHexString (stringToHex d.metadata.description),
  some spacer,
  fromHexString hx01.data,
  some spacer,
  fromHexString hxCreatorTag.data,
  some spacer,
  lenHex d.metadata.creator.length,
  fromHexString (stringToHex d.metadata.creator),
  some spacer,
  fromHexString hx01.data,
  some spacer,
  fromHexString hx0E.data,
  fromHexString hxCategoryTag.data,
  some spacer,
  lenHex d.metadata.category.codes.length,
  fromHexString (stringToHex d.metadata.category.codes),
  some spacer,
  fromHexString hx01.data,
  some spacer,
  fromHexString hx0A.data,
  fromHexString hxCurveKind.data,
  some spacer,
  fromHexString hx01.data,
  some spacer,
  fromHexString hxRevisionId.data,
  some spacer,
  fromHexString hxRevisionStr.data,
  some spacer,
  fromHexString hx01.data,
  some spacer,
  fromHexString hxRevisionNo.data,
  some spacer,
  fromHexString hx01.data,
  some spacer,
  fromHexString hxTagsTag.data,
  some spacer,
  fromHexString (
    if d.metadata.tags.length = 0 then hx00.data
    else jsHexDigits (jsJoin (strCodes joinZero) d.metadata.tags).length),
  fromHexString (jsJoin hxTagSep.data (d.metadata.tags.map stringToHex)),
  some spacer,
  fromHexString hx01.data,
  some spacer,
  fromHexString hxTypeTag.data,
  some spacer,
  fromHexString hxMime.data,
  some spacer,
  fromHexString hx00.data,
  fromHexString hxSpaces.data,
  fromHexString hx00.data,
  fromHexString hxPointsDecl.data]

/-- The entries of the encoder's array literal that follow the merged
point records, one entry per spread element, in source order. -/
def toBufferSegsB (d : BWCurve) (spacer stop : List Nat) : List (Option (List Nat)) := [
  fromHexString hxPointsEnd.data,
  fromHexString hxNameTag.data,
  some spacer,
  lenHex d.metadata.name.length,
  fromHexString (stringToHex d.metadata.name),
  some stop,
  fromHexString hxTrCreator.data,
  some spacer,
  lenHex d.metadata.creator.length,
  fromHexString (stringToHex d.metadata.creator),
  some stop,
  fromHexString hxTrDesc.data,
  some spacer,
  lenHex d.metadata.description.length,
  fromHexString (stringToHex d.metadata.description),
  some stop,
  fromHexString hxTrCat.data,
  some spacer,
  lenHex d.metadata.category.codes.length,
  fromHexString (stringToHex d.metadata.category.codes),
  some stop,
  fromHexString hxTrTags.data,
  some spacer,
  fromHexString (
    if d.metadata.tags.length = 0 then hx00.data
    else jsHexDigits (jsJoin (strCodes joinZero) d.metadata.tags).length),
  fromHexString (jsJoin hxTagSep.data (d.metadata.tags.map stringToHex)),
  some stop,
  some spacer]

/-- `toBuffer`: the full encoder.  `spacer`, `stop` and the merged point
records are computed first, exactly as in the source; the segment lists
hold one entry per spread element of the source's `Uint8Array.from([...])`
literal, in source order, and the result is their concatenation.  A
`fromHexString` failure (a thrown `TypeError` in the source) propagates as
`none`. -/
def toBuffer (c : F64Codec) (d : BWCurve) : Option (List Nat) := do
  let spacer ← fromHexString hxSpacer.data
  let stop ← fromHexString hxStop.data
  let points ← seqOption (d.points.map (pointStructure c))
  let mergedPoints := points.flatten
  let segments ← seqOption
    (toBufferSegsA d spacer ++ some mergedPoints :: toBufferSegsB d spacer stop)
  pure segments.flatten

/-- The state-transformer reading of a `curve.toBuffer()` call: the method
body assigns no field of `this` (it only builds local arrays), so the
post-state is the receiver unchanged. -/
def toBufferCall (c : F64Codec) (d : BWCurve) : Option (List Nat) × BWCurve :=
  (toBuffer c d, d)

/-!
The decoder.  `BWCurve.fromBuffer` in the source throws
`Error('Not implemented (yet)')`.  Modelled from the spec: §4.3's decode
contract — parse the fixed header, the metadata block (description,
creator, category, tags), the point records, and the trailer block
(which carries the curve name), failing (`none`) on any mismatched
constant, short buffer or unknown category, and reconstructing an
equivalent document.  The expected byte groups below are the same format
constants the encoder emits, concatenated between the variable fields.
-/

/-- The byte shape of one encoded point record, given the abstract
big-endian double encoding. -/
def pointRecord (c : F64Codec) (p : BWCurvePoint) : List Nat :=
  hexC hxPtPre ++ c.enc p.y ++ hexC hxPtA ++ c.enc p.x ++
  hexC hxPtB ++ c.enc p.slope ++ hexC hxPtTrail

/-- A concrete stand-in for the IEEE-754 byte codec, adequate for
documents whose coordinates are 0 or 1: it satisfies the 8-byte-image and
decode∘encode hypotheses at those values. -/
def wCodec : F64Codec :=
  { enc := fun q => [if q = 0 then 0 else if q = 1 then 1 else 2, 0, 0, 0, 0, 0, 0, 0]
  , dec := fun bs =>
      if bs = [0, 0, 0, 0, 0, 0, 0, 0] then some 0
      else if bs = [1, 0, 0, 0, 0, 0, 0, 0] then some 1
      else none }

/-- Default document with points `[(0,0,0), (1,1,0)]`. -/
def wDoc : BWCurve :=
  { newBWCurve with points := [⟨0, 0, 0⟩, ⟨1, 1, 0⟩] }

/-- The bytes `toBuffer` produces for `wDoc` under `wCodec`. -/
def wBytes : List Nat := (toBuffer wCodec wDoc).getD []

/-- Default document with no points and an empty tags list. -/
def docEmptyTags : BWCurve :=
  { newBWCurve with metadata := { newBWCurve.metadata with tags := [] } }

/-- Document with points `[(0,0,0), (2,1,0)]` (max x = 2). -/
def docX2 : BWCurve :=
  { newBWCurve with points := [⟨0, 0, 0⟩, ⟨2, 1, 0⟩] }

/-- Document with points `[(0,0,0), (1,1,0)]`, the spec's splice example. -/
def docSplice : BWCurve :=
  { newBWCurve with points := [⟨0, 0, 0⟩, ⟨1, 1, 0⟩] }

/-- A document with a single point whose y and slope are out of range. -/
def docClamp : BWCurve :=
  { newBWCurve with points := [⟨0, 3 / 2, -2⟩] }

/-- Single point with `y = 0`. -/
def docY0 : BWCurve := { newBWCurve with points := [⟨0, 0, 0⟩] }

/-- Single point with `y = 1`. -/
def docY1 : BWCurve := { newBWCurve with points := [⟨0, 1, 0⟩] }

/-- Single point with `y = 0.5`. -/
def docYHalf : BWCurve := { newBWCurve with points := [⟨0, 1 / 2, 0⟩] }

/-- A concrete `JsMath` instance satisfying `tanh 0 = 0`. -/
def wMath : JsMath := { tanh := fun q => q, sin := fun q => q, pi := 3 }

theorem mapIdx_eq_map_of_const {α β : Type} (g : α → β) :
    ∀ (f : Nat → α → β), (∀ i a, f i a = g a) → ∀ l : List α, l.mapIdx f = l.map g := by
  intro f hf l
  induction l generalizing f with
  | nil => simp
  | cons a t ih =>
    rw [List.mapIdx_cons, List.map_cons, hf, ih (fun i => f (i + 1)) (fun i a => hf (i + 1) a)]

theorem map_points_eq (d : BWCurve) (g : BWCurvePoint → BWCurvePoint)
    (f : BWCurvePoint → Nat → List BWCurvePoint → BWCurvePoint)
    (hf : ∀ p i l, f p i l = g p) :
    (d.map f).points = d.points.map g := by
  unfold BWCurve.map
  exact mapIdx_eq_map_of_const g _ (fun i a => hf a i d.points) d.points

theorem clamp_points (d : BWCurve) :
    (BWCurve.clamp d).points =
      d.points.map (fun p =>
        { p with y := max 0 (min 1 p.y), slope := max (-1) (min 1 p.slope) }) := by
  unfold BWCurve.clamp
  exact map_points_eq d _ _ (fun p i l => rfl)

theorem max_min_clamp_idem (a b y : ℚ) (hab : a ≤ b) :
    max a (min b (max a (min b y))) = max a (min b y) := by
  have h1 : a ≤ max a (min b y) := le_max_left _ _
  have h2 : max a (min b y) ≤ b := max_le hab (min_le_left _ _)
  rw [min_eq_right h2, max_eq_right h1]

/-- C7: `clamp()` is idempotent — applying it twice yields the same point
sequence as applying it once — and after one application every point has
`y ∈ [0,1]` and `slope ∈ [-1,1]`. -/
theorem clamp_idem_and_bounds (d : BWCurve) :
    (BWCurve.clamp (BWCurve.clamp d)).points = (BWCurve.clamp d).points ∧
    ∀ p ∈ (BWCurve.clamp d).points,
      (0 ≤ p.y ∧ p.y ≤ 1) ∧ (-1 ≤ p.slope ∧ p.slope ≤ 1) := by
  constructor
  · have h1 := clamp_points (BWCurve.clamp d)
    rw [h1, clamp_points d, List.map_map]
    apply List.map_congr_left
    intro p _
    simp only [Function.comp_apply]
    congr 1
    · exact max_min_clamp_idem 0 1 p.y (by norm_num)
    · exact max_min_clamp_idem (-1) 1 p.slope (by norm_num)
  · intro p hp
    rw [clamp_points d] at hp
    obtain ⟨q, _, rfl⟩ := List.exists_of_mem_map hp
    refine ⟨⟨le_max_left _ _, max_le (by norm_num) (min_le_left _ _)⟩,
            ⟨le_max_left _ _, max_le (by norm_num) (min_le_left _ _)⟩⟩

/-- Witness for C7 at the concrete document `docClamp`. -/
theorem clamp_idem_and_bounds_witness :
    (BWCurve.clamp (BWCurve.clamp docClamp)).points = (BWCurve.clamp docClamp).points ∧
    ((0 ≤ (⟨0, 1, -1⟩ : BWCurvePoint).y ∧ (⟨0, 1, -1⟩ : BWCurvePoint).y ≤ 1) ∧
     (-1 ≤ (⟨0, 1, -1⟩ : BWCurvePoint).slope ∧ (⟨0, 1, -1⟩ : BWCurvePoint).slope ≤ 1)) :=
  ⟨(clamp_idem_and_bounds docClamp).1,
   (clamp_idem_and_bounds docClamp).2 ⟨0, 1, -1⟩
     (by rw [clamp_points]; norm_num [docClamp, newBWCurve, min_def, max_def])⟩

/-- C3: encoding is deterministic on document state — a second `toBuffer`
call on the unmutated post-state of the first produces the identical byte
sequence. -/
theorem toBuffer_deterministic :
    ∀ (c : F64Codec) (d : BWCurve),
      (toBufferCall c (toBufferCall c d).2).1 = (toBufferCall c d).1 :=
  fun _ _ => rfl

/-- C10: `toBuffer` does not mutate the document — after the call the
point sequence and every metadata field equal their values before it. -/
theorem toBuffer_frame :
    ∀ (c : F64Codec) (d : BWCurve),
      (toBufferCall c d).2.points = d.points ∧
      (toBufferCall c d).2.metadata.name = d.metadata.name ∧
      (toBufferCall c d).2.metadata.creator = d.metadata.creator ∧
      (toBufferCall c d).2.metadata.description = d.metadata.description ∧
      (toBufferCall c d).2.metadata.category = d.metadata.category ∧
      (toBufferCall c d).2.metadata.tags = d.metadata.tags :=
  fun _ _ => ⟨rfl, rfl, rfl, rfl, rfl, rfl⟩

/-- C4: evaluation of `double()` at points `[(0,0,0), (2,1,0)]`
(max x = 2): the source multiplies each x by `0.5 * maxX = 1`, not by
`0.5`, so the curve is not halved and the result spans `[0, 4]`, twice the
original x domain, contradicting the claimed behaviour (its own doc
comment says "Scales the curve by 0.5"). -/
theorem double_eval_x2 :
    (BWCurve.double docX2).points = [⟨0, 0, 0⟩, ⟨2, 1, 0⟩, ⟨2, 0, 0⟩, ⟨4, 1, 0⟩] ∧
    BWCurve.getMaxX (BWCurve.double docX2) = 4 ∧
    BWCurve.getMaxX docX2 = 2 ∧
    (BWCurve.double docX2).points.length = 2 * docX2.points.length := by
  simp [BWCurve.double, BWCurve.getMaxX, BWCurve.scaleX, BWCurve.spliceCurve,
    BWCurve.pushPoints, docX2, newBWCurve, max_def]
  norm_num

/-- C5 counterexample: splicing `[(0,0,0),(1,1,0)]` with itself does not
yield the claimed `[(0,0,0),(1,1,0),(2,0,0),(3,1,0)]`. -/
theorem spliceCurve_example_ne_claimed :
    (BWCurve.spliceCurve docSplice docSplice).points ≠
      [⟨0, 0, 0⟩, ⟨1, 1, 0⟩, ⟨2, 0, 0⟩, ⟨3, 1, 0⟩] := by
  simp [BWCurve.spliceCurve, BWCurve.pushPoints, BWCurve.getMaxX,
    docSplice, newBWCurve, max_def]

/-- C5 (amended): `spliceCurve` on an empty receiver adopts the argument's
points unchanged, and splicing `[(0,0,0),(1,1,0)]` with
`[(0,0,0),(1,1,0)]` yields `[(0,0,0),(1,1,0),(1,0,0),(2,1,0)]`, the
appended points being offset on x by the receiver's maximum x, 1. -/
theorem spliceCurve_spec :
    (∀ a b : BWCurve, a.points = [] → (BWCurve.spliceCurve a b).points = b.points) ∧
    (BWCurve.spliceCurve docSplice docSplice).points =
      [⟨0, 0, 0⟩, ⟨1, 1, 0⟩, ⟨1, 0, 0⟩, ⟨2, 1, 0⟩] := by
  constructor
  · intro a b ha
    by_cases hb : b.points = [] <;>
      simp [BWCurve.spliceCurve, ha, hb]
  · simp [BWCurve.spliceCurve, BWCurve.pushPoints, BWCurve.getMaxX,
      docSplice, newBWCurve, max_def]
    norm_num

/-- Witness for C5's universally quantified part at a concrete pair. -/
theorem spliceCurve_spec_witness :
    (BWCurve.spliceCurve newBWCurve docSplice).points = docSplice.points :=
  spliceCurve_spec.1 newBWCurve docSplice rfl

/-- C6 counterexample: `removePoint(-1)` on `[(0,0,0),(1,1,0)]` is not a
no-op — JavaScript `splice` counts a negative index from the end and
deletes the last point. -/
theorem removePoint_neg_not_noop :
    (BWCurve.removePoint docSplice (-1)).points ≠ docSplice.points := by
  norm_num [BWCurve.removePoint, docSplice, newBWCurve, max_def, min_def]

/-- C6 (amended): `removePoint` with an index greater than or equal to the
point count silently no-ops (the point sequence is unchanged, no error);
a negative index instead counts from the end (clamped to the start) and
removes an existing point, as `removePoint(-1)` on `[(0,0,0),(1,1,0)]`
shows. -/
theorem removePoint_spec :
    (∀ (d : BWCurve) (i : Int), (d.points.length : Int) ≤ i →
      (BWCurve.removePoint d i).points = d.points) ∧
    (BWCurve.removePoint docSplice (-1)).points = [⟨0, 0, 0⟩] := by
  constructor
  · intro d i h
    have hneg : ¬ i < 0 := by omega
    simp only [BWCurve.removePoint, hneg, if_false]
    rw [min_eq_right h, Int.toNat_natCast, List.take_length,
      List.drop_eq_nil_of_le (by omega), List.append_nil]
  · norm_num [BWCurve.removePoint, docSplice, newBWCurve, max_def, min_def]

/-- Witness for C6's universally quantified part at a concrete document
and out-of-range index. -/
theorem removePoint_spec_witness :
    (BWCurve.removePoint docSplice 5).points = docSplice.points :=
  removePoint_spec.1 docSplice 5 (by norm_num [docSplice, newBWCurve])

/-- C8: `clip('tanh')` fixes `y = 0` (using ECMAScript's
`Math.tanh(+0) = +0`); `clip('sin')` on `y = 1` takes the sign branch
since `|1| > 2/3` and yields 1; `clip('cubic')` on `y = 0.5` yields
`2.25 · 0.5 − 1.6875 · 0.125 = 0.9140625`. -/
theorem clip_examples (m : JsMath) (h : m.tanh 0 = 0) :
    (BWCurve.clip m docY0 (r"tanh")).points = [⟨0, 0, 0⟩] ∧
    (BWCurve.clip m docY1 (r"sin")).points = [⟨0, 1, 0⟩] ∧
    (BWCurve.clip m docYHalf (r"cubic")).points = [⟨0, 0.9140625, 0⟩] := by
  refine ⟨?_, ?_, ?_⟩
  · have h5 : (5 : ℚ) * 0 = 0 := by norm_num
    simp [BWCurve.clip, BWCurve.map, docY0, newBWCurve, h5, h]
  · simp +decide [BWCurve.clip, BWCurve.map, docY1, newBWCurve, jsSign]
    norm_num
  · simp +decide [BWCurve.clip, BWCurve.map, docYHalf, newBWCurve, jsSign]
    norm_num
    rw [abs_of_pos (by norm_num : (0 : ℚ) < 1 / 2)]
    norm_num

/-- Witness for C8 with a concrete `JsMath` satisfying `tanh 0 = 0`. -/
theorem clip_examples_witness :
    (BWCurve.clip wMath docY0 (r"tanh")).points = [⟨0, 0, 0⟩] ∧
    (BWCurve.clip wMath docY1 (r"sin")).points = [⟨0, 1, 0⟩] ∧
    (BWCurve.clip wMath docYHalf (r"cubic")).points = [⟨0, 0.9140625, 0⟩] :=
  clip_examples wMath rfl

/-- C9: on a document whose tags list is empty the encoder does emit the
single `0x00` length byte, but the very next spread calls
`fromHexString('')` (the joined tag bytes of zero tags), whose `match`
returns `null` and whose non-null assertion then throws a `TypeError`:
`toBuffer` produces no buffer at all. -/
theorem toBuffer_emptyTags_throws :
    ∀ c : F64Codec, toBuffer c docEmptyTags = none :=
  fun _ => rfl

/-!  Sequencing and point-record lemmas for the codec proofs.  -/

theorem seqOption_nil {α : Type} : seqOption ([] : List (Option α)) = some [] := rfl

theorem seqOption_cons_none {α : Type} (l : List (Option α)) :
    seqOption (none :: l) = none := rfl

theorem seqOption_cons_some {α : Type} (a : α) (l : List (Option α)) :
    seqOption (some a :: l) = (seqOption l).map (a :: ·) := by
  cases h : seqOption l <;> simp [seqOption, h, Option.bind]

theorem seqOption_append {α : Type} (l₁ l₂ : List (Option α)) :
    seqOption (l₁ ++ l₂) = (seqOption l₁).bind fun a => (seqOption l₂).map (a ++ ·) := by
  induction l₁ with
  | nil =>
    cases h : seqOption l₂ <;> simp [seqOption_nil, h]
  | cons o t ih =>
    cases o with
    | none => simp [seqOption_cons_none]
    | some a =>
      rw [List.cons_append, seqOption_cons_some, seqOption_cons_some, ih]
      cases ht : seqOption t <;> cases h2 : seqOption l₂ <;> simp

theorem seqOption_map_some {α β : Type} (f : α → Option β) (g : α → β)
    (hf : ∀ a, f a = some (g a)) : ∀ l : List α, seqOption (l.map f) = some (l.map g) := by
  intro l
  induction l with
  | nil => simp [seqOption_nil]
  | cons a t ih => rw [List.map_cons, hf a, seqOption_cons_some, ih]; rfl

theorem writeBytesAt_eq (a z b e : List Nat) (n : Nat) (ha : a.length = n)
    (hz : z.length = e.length) : writeBytesAt (a ++ z ++ b) n e = a ++ e ++ b := by
  unfold writeBytesAt
  subst ha
  have h1 : (a ++ z ++ b).take a.length = a := by
    rw [List.append_assoc, List.take_left]
  have h2 : (a ++ z ++ b).drop (a.length + e.length) = b := by
    rw [← hz, ← List.length_append a z, List.drop_left]
  rw [h1, h2]

theorem pointStructure_eq (c : F64Codec) (hlen : ∀ q, (c.enc q).length = 8)
    (p : BWCurvePoint) : pointStructure c p = some (pointRecord c p) := by
  have h0 : pointStructure c p = some (writeBytesAt (writeBytesAt (writeBytesAt
      (hexC hxPtPre ++ List.replicate 8 0 ++
       (hexC hxPtA ++ (List.replicate 8 0 ++ (hexC hxPtB ++ (List.replicate 8 0 ++
        hexC hxPtTrail))))) 8 (c.enc p.y)) 21 (c.enc p.x)) 34 (c.enc p.slope)) := rfl
  rw [h0]
  rw [writeBytesAt_eq _ _ _ _ _ (by decide) (by simp [hlen])]
  rw [show hexC hxPtPre ++ c.enc p.y ++
       (hexC hxPtA ++ (List.replicate 8 0 ++ (hexC hxPtB ++ (List.replicate 8 0 ++
        hexC hxPtTrail)))) =
      hexC hxPtPre ++ c.enc p.y ++ hexC hxPtA ++ List.replicate 8 0 ++
       (hexC hxPtB ++ (List.replicate 8 0 ++ hexC hxPtTrail)) from by
        simp [List.append_assoc]]
  rw [writeBytesAt_eq _ _ _ _ _ (by simp [List.length_append, hlen]; decide)
    (by simp [hlen])]
  rw [show hexC hxPtPre ++ c.enc p.y ++ hexC hxPtA ++ c.enc p.x ++
       (hexC hxPtB ++ (List.replicate 8 0 ++ hexC hxPtTrail)) =
      hexC hxPtPre ++ c.enc p.y ++ hexC hxPtA ++ c.enc p.x ++ hexC hxPtB ++
       List.replicate 8 0 ++ hexC hxPtTrail from by simp [List.append_assoc]]
  rw [writeBytesAt_eq _ _ _ _ _ (by simp [List.length_append, hlen]; decide)
    (by simp [hlen])]
  rfl

/-!  Hex-string lemmas: the encoder's length and string fields decode back
to themselves for two-digit characters.  -/

@[simp] theorem fhxSpacer : fromHexString hxSpacer.data = some (hexC hxSpacer) := rfl

@[simp] theorem fhxStop : fromHexString hxStop.data = some (hexC hxStop) := rfl

@[simp] theorem fhxPointsEnd : fromHexString hxPointsEnd.data = some (hexC hxPointsEnd) := rfl

theorem seqOption_append_inv {α : Type} {l₁ l₂ : List (Option α)} {L : List α}
    (h : seqOption (l₁ ++ l₂) = some L) :
    ∃ a b, seqOption l₁ = some a ∧ seqOption l₂ = some b ∧ L = a ++ b := by
  rw [seqOption_append] at h
  cases h1 : seqOption l₁ with
  | none => rw [h1] at h; simp at h
  | some a =>
    rw [h1] at h
    simp only [Option.some_bind'] at h
    cases h2 : seqOption l₂ with
    | none => rw [h2] at h; simp at h
    | some b =>
      rw [h2] at h
      simp only [Option.map_some', Option.some.injEq] at h
      exact ⟨a, b, rfl, rfl, h.symm⟩

theorem seqOption_cons_inv {α : Type} {o : Option α} {l : List (Option α)} {L : List α}
    (h : seqOption (o :: l) = some L) :
    ∃ a b, o = some a ∧ seqOption l = some b ∧ L = a :: b := by
  cases o with
  | none => rw [seqOption_cons_none] at h; exact absurd h (by simp)
  | some a =>
    rw [seqOption_cons_some] at h
    cases h2 : seqOption l with
    | none => rw [h2] at h; simp at h
    | some b =>
      rw [h2] at h
      simp only [Option.map_some', Option.some.injEq] at h
      exact ⟨a, b, rfl, rfl, h.symm⟩

/-- C2 counterexample: the record the encoder builds for a point is 47
bytes — an eight-byte tag before y, not a seven-byte one — so no
decomposition into a seven-byte tag, the three 8-byte doubles, two
five-byte tags and a five-byte trailer (46 bytes in all) exists. -/
theorem pointRecord_tag_not_seven_bytes :
    ¬ ∃ t7 t5a t5b t5c : List Nat, t7.length = 7 ∧ t5a.length = 5 ∧ t5b.length = 5 ∧
      t5c.length = 5 ∧ (pointStructure wCodec ⟨0, 0, 0⟩).getD [] =
        t7 ++ wCodec.enc 0 ++ t5a ++ wCodec.enc 0 ++ t5b ++ wCodec.enc 0 ++ t5c := by
  rintro ⟨t7, t5a, t5b, t5c, h7, h5a, h5b, h5c, heq⟩
  have hL := congrArg List.length heq
  rw [show ((pointStructure wCodec ⟨0, 0, 0⟩).getD []).length = 47 from rfl] at hL
  have hlen0 : (wCodec.enc 0).length = 8 := rfl
  simp [List.length_append, h7, h5a, h5b, h5c, hlen0] at hL

/-- C2 (amended): whenever `toBuffer` emits a buffer, it contains the
points block: for each point in order, with no separators, an eight-byte
tag, the 8-byte big-endian double for y, a five-byte tag, the 8-byte
double for x, a five-byte tag, the 8-byte double for slope and a
five-byte trailer, followed by the fixed points-block terminator. -/
theorem toBuffer_points_block (c : F64Codec) (d : BWCurve) (bs : List Nat)
    (hlen : ∀ q, (c.enc q).length = 8) (hb : toBuffer c d = some bs) :
    (hexC hxPtPre).length = 8 ∧ (hexC hxPtA).length = 5 ∧
    (hexC hxPtB).length = 5 ∧ (hexC hxPtTrail).length = 5 ∧
    ∃ pre post, bs = pre ++ (d.points.map (pointRecord c)).flatten ++
      hexC hxPointsEnd ++ post := by
  refine ⟨by decide, by decide, by decide, by decide, ?_⟩
  unfold toBuffer at hb
  simp only [fhxSpacer, fhxStop, Option.bind_eq_bind, Option.some_bind'] at hb
  rw [seqOption_map_some _ _ (pointStructure_eq c hlen)] at hb
  simp only [Option.some_bind'] at hb
  cases hseq : seqOption (toBufferSegsA d (hexC hxSpacer) ++
      some ((d.points.map (pointRecord c)).flatten) ::
        toBufferSegsB d (hexC hxSpacer) (hexC hxStop)) with
  | none => rw [hseq] at hb; simp at hb
  | some segs =>
    rw [hseq] at hb
    simp only [Option.some_bind', Option.pure_def, Option.some.injEq] at hb
    obtain ⟨sa, sbl, hA, hB, rfl⟩ := seqOption_append_inv hseq
    obtain ⟨m, sb2, hm, hB2, rfl⟩ := seqOption_cons_inv hB
    unfold toBufferSegsB at hB2
    rw [fhxPointsEnd] at hB2
    obtain ⟨pe, sb3, hpe, hB3, rfl⟩ := seqOption_cons_inv hB2
    injection hm with hm
    injection hpe with hpe
    refine ⟨sa.flatten, sb3.flatten, ?_⟩
    rw [← hb]
    simp [List.flatten_append, List.flatten_cons, ← hm, ← hpe, List.append_assoc]

set_option maxRecDepth 100000 in
/-- Witness for C2 at the concrete codec, document and its encoded
bytes. -/
theorem toBuffer_points_block_witness :
    (hexC hxPtPre).length = 8 ∧ (hexC hxPtA).length = 5 ∧
    (hexC hxPtB).length = 5 ∧ (hexC hxPtTrail).length = 5 ∧
    ∃ pre post, wBytes = pre ++ (wDoc.points.map (pointRecord wCodec)).flatten ++
      hexC hxPointsEnd ++ post :=
  toBuffer_points_block wCodec wDoc wBytes (fun _ => rfl) (by decide)

